import Mathlib

/-!
Verification of the PrivateSend mixing coordinator (darkcoinproject/darkcoin).

Shallow embedding of the server-side mixing state machine from
src/privatesend/privatesend-server.cpp and src/privatesend.h.
External collaborators (collateral validation, script verification, the
mempool, peer connectivity, the masternode list, randomness) are abstracted
as parameters carried in a context structure; everything the server itself
computes is embedded as executable Lean functions.
-/

/-- An outpoint: (transaction hash, output index); uint256 abstracted as Nat. -/
structure OutPoint where
  hash : Nat
  n : Nat
deriving DecidableEq, Repr

/-- CTxIn: previous outpoint, signature script (byte list), sequence number. -/
structure CTxIn where
  prevout : OutPoint
  scriptSig : List Nat
  nSequence : Nat
deriving DecidableEq, Repr

/-- CTxDSIn (privatesend.h): a CTxIn with the fields the server uses: the
recorded previous public-key script and the has-signature flag. -/
structure CTxDSIn where
  prevout : OutPoint
  scriptSig : List Nat
  nSequence : Nat
  prevPubKey : List Nat
  fHasSig : Bool
deriving DecidableEq, Repr

/-- Slicing a CTxDSIn down to its CTxIn base, as C++ does when pushing a
CTxDSIn into a vector of CTxIn. -/
def CTxDSIn.toTxIn (t : CTxDSIn) : CTxIn :=
  { prevout := t.prevout, scriptSig := t.scriptSig, nSequence := t.nSequence }

/-- CTxOut: amount and recipient script. -/
structure CTxOut where
  nValue : Int
  scriptPubKey : List Nat
deriving DecidableEq, Repr

/-- A collateral transaction reference (CTransactionRef), abstracted to an
identifier; its validity is decided by the external validator in the context.
Equality of identifiers embeds C++ equality of the referenced transactions. -/
abbrev Collateral := Nat

/-- CPrivateSendEntry: a participant's contribution (address, collateral,
mixing inputs, mixing outputs). -/
structure CPrivateSendEntry where
  addr : Nat
  txCollateral : Collateral
  vecTxDSIn : List CTxDSIn
  vecTxOut : List CTxOut
deriving DecidableEq, Repr

/-- CMutableTransaction restricted to the fields the server manipulates. -/
structure CMutableTransaction where
  vin : List CTxIn
  vout : List CTxOut
deriving DecidableEq, Repr

/-- Pool states (privatesend.h). -/
inductive PoolState where
  | POOL_STATE_IDLE
  | POOL_STATE_QUEUE
  | POOL_STATE_ACCEPTING_ENTRIES
  | POOL_STATE_SIGNING
  | POOL_STATE_ERROR
  | POOL_STATE_SUCCESS
deriving DecidableEq, Repr

open PoolState

/-- Pool result codes (privatesend.h). -/
inductive PoolMessage where
  | ERR_ALREADY_HAVE
  | ERR_DENOM
  | ERR_ENTRIES_FULL
  | ERR_EXISTING_TX
  | ERR_FEES
  | ERR_INVALID_COLLATERAL
  | ERR_INVALID_INPUT
  | ERR_INVALID_SCRIPT
  | ERR_INVALID_TX
  | ERR_MAXIMUM
  | ERR_MN_LIST
  | ERR_MODE
  | ERR_NON_STANDARD_PUBKEY
  | ERR_NOT_A_MN
  | ERR_QUEUE_FULL
  | ERR_RECENT
  | ERR_SESSION
  | ERR_MISSING_TX
  | ERR_VERSION
  | MSG_NOERR
  | MSG_SUCCESS
  | MSG_ENTRIES_ADDED
deriving DecidableEq, Repr

open PoolMessage

/-- Protocol timeouts and limits (privatesend.h). -/
def PRIVATESEND_QUEUE_TIMEOUT : Int := 30

def PRIVATESEND_SIGNING_TIMEOUT : Int := 15

def PRIVATESEND_ENTRY_MAX_SIZE : Nat := 9

def MIN_PRIVATESEND_PEER_PROTO_VERSION : Int := 70206

/-- The mutable session state of CPrivateSendServer (base-class fields
included): pool state, session id and denomination, admitted collaterals,
admitted entries, the assembled final transaction, and the timestamp of the
last successful step. -/
structure CPrivateSendServer where
  nState : PoolState
  nSessionID : Nat
  nSessionDenom : Nat
  vecSessionCollaterals : List Collateral
  vecEntries : List CPrivateSendEntry
  finalMutableTransaction : CMutableTransaction
  nTimeLastSuccessfulStep : Int
deriving DecidableEq, Repr

/-- The external collaborators of the server, abstracted: mode flags, chain
parameters, the collateral validator, denomination validator, input/output
shape validator, script verification, mempool admission, peer connectivity,
the transaction hash function and the masternode's own outpoint. -/
structure Ctx where
  fMasternodeMode : Bool
  maxPoolParticipants : Nat
  minPoolParticipants : Nat
  isCollateralValid : Collateral → Bool
  isValidDenomination : Nat → Bool
  isValidInOuts : List CTxIn → List CTxOut → Bool × PoolMessage × Bool
  verifyScript : List Nat → List Nat → CMutableTransaction → Nat → Bool
  mempoolAccepts : CMutableTransaction → Bool
  connected : Nat → Bool
  txHash : CMutableTransaction → Nat
  mnOutpoint : OutPoint

/-- Randomness consumed by the fee-charging paths: the two GetRandInt(100)
draws of ChargeFees, the shuffle outcome of random_shuffle, and the stream of
GetRandInt(100) draws of ChargeRandomFees. -/
structure Rands where
  r1 : Nat
  r2 : Nat
  shuffle : List Collateral → List Collateral
  draws : Nat → Nat

/-- GetEntriesCount: number of admitted entries. -/
def getEntriesCount (p : CPrivateSendServer) : Nat := p.vecEntries.length

/-- CPrivateSendServer::SetNull composed with the base-class resets.  The
server part (privatesend-server.cpp, line 221) clears the session
collaterals; the base-class part is modelled from the spec: reset to Idle
with id 0, no denomination, no entries and an empty final transaction. -/
def setNull (p : CPrivateSendServer) : CPrivateSendServer :=
  { nState := POOL_STATE_IDLE
    nSessionID := 0
    nSessionDenom := 0
    vecSessionCollaterals := []
    vecEntries := []
    finalMutableTransaction := { vin := [], vout := [] }
    nTimeLastSuccessfulStep := p.nTimeLastSuccessfulStep }

/-- CPrivateSendServer::SetState (privatesend-server.cpp, line 840): refuses
POOL_STATE_ERROR and POOL_STATE_SUCCESS on a masternode; otherwise stamps
the step time and installs the new state. -/
def setState (ctx : Ctx) (now : Int) (nStateNew : PoolState) (p : CPrivateSendServer) :
    CPrivateSendServer :=
  if ¬ ctx.fMasternodeMode then p
  else if nStateNew = POOL_STATE_ERROR ∨ nStateNew = POOL_STATE_SUCCESS then p
  else { p with nTimeLastSuccessfulStep := now, nState := nStateNew }

/-- CPrivateSendServer::HasTimedOut. -/
def hasTimedOut (ctx : Ctx) (now : Int) (p : CPrivateSendServer) : Bool :=
  if ¬ ctx.fMasternodeMode then false
  else if p.nState = POOL_STATE_IDLE then false
  else
    now - p.nTimeLastSuccessfulStep ≥
      (if p.nState = POOL_STATE_SIGNING then PRIVATESEND_SIGNING_TIMEOUT
       else PRIVATESEND_QUEUE_TIMEOUT)

/-- CPrivateSendServer::IsSessionReady: in POOL_STATE_QUEUE, true when the
maximum participant count is reached or the session timed out with at least
the minimum; always true in POOL_STATE_ACCEPTING_ENTRIES. -/
def isSessionReady (ctx : Ctx) (now : Int) (p : CPrivateSendServer) : Bool :=
  if p.nState = POOL_STATE_QUEUE then
    if p.vecSessionCollaterals.length ≥ ctx.maxPoolParticipants then true
    else if hasTimedOut ctx now p ∧
        p.vecSessionCollaterals.length ≥ ctx.minPoolParticipants then true
    else false
  else if p.nState = POOL_STATE_ACCEPTING_ENTRIES then true
  else false

/-- CPrivateSendAccept: the dsa message payload. -/
structure CPrivateSendAccept where
  nDenom : Nat
  txCollateral : Collateral
deriving DecidableEq, Repr

/-- CPrivateSendServer::IsAcceptableDSA: denomination and collateral checks.
The fUnitTest collateral bypass is omitted (production configuration). -/
def isAcceptableDSA (ctx : Ctx) (dsa : CPrivateSendAccept) : Bool × PoolMessage :=
  if ¬ ctx.fMasternodeMode then (false, MSG_NOERR)
  else if ¬ ctx.isValidDenomination dsa.nDenom then (false, ERR_DENOM)
  else if ¬ ctx.isCollateralValid dsa.txCollateral then (false, ERR_INVALID_COLLATERAL)
  else (true, MSG_NOERR)

/-- CPrivateSendServer::CreateNewSession: only from idle with session id 0;
assigns a fresh random session id in 1..999999, installs the denomination,
moves to POOL_STATE_QUEUE and appends the first collateral. -/
def createNewSession (ctx : Ctx) (now : Int) (rand : Nat) (dsa : CPrivateSendAccept)
    (p : CPrivateSendServer) : CPrivateSendServer × Bool × PoolMessage :=
  if ¬ ctx.fMasternodeMode ∨ p.nSessionID ≠ 0 then (p, false, MSG_NOERR)
  else if p.nState ≠ POOL_STATE_IDLE then (p, false, ERR_MODE)
  else if ¬ (isAcceptableDSA ctx dsa).1 then (p, false, (isAcceptableDSA ctx dsa).2)
  else
    let p1 := setState ctx now POOL_STATE_QUEUE
      { p with nSessionID := rand % 999999 + 1, nSessionDenom := dsa.nDenom }
    ({ p1 with vecSessionCollaterals := p1.vecSessionCollaterals ++ [dsa.txCollateral] },
     true, MSG_NOERR)

/-- CPrivateSendServer::AddUserToExistingSession: only while queueing with a
live session that is not yet ready, matching denomination and acceptable
collateral; appends the collateral. -/
def addUserToExistingSession (ctx : Ctx) (now : Int) (dsa : CPrivateSendAccept)
    (p : CPrivateSendServer) : CPrivateSendServer × Bool × PoolMessage :=
  if ¬ ctx.fMasternodeMode ∨ p.nSessionID = 0 ∨ isSessionReady ctx now p then
    (p, false, MSG_NOERR)
  else if ¬ (isAcceptableDSA ctx dsa).1 then (p, false, (isAcceptableDSA ctx dsa).2)
  else if p.nState ≠ POOL_STATE_QUEUE then (p, false, ERR_MODE)
  else if dsa.nDenom ≠ p.nSessionDenom then (p, false, ERR_DENOM)
  else ({ p with vecSessionCollaterals := p.vecSessionCollaterals ++ [dsa.txCollateral] },
        true, MSG_NOERR)

/-- Duplicate-input test of AddEntry: does some input of the submitted entry
reference an outpoint already present in an admitted entry? -/
def hasDuplicateInput (entry : CPrivateSendEntry) (l : List CPrivateSendEntry) : Bool :=
  entry.vecTxDSIn.any fun txin =>
    l.any fun e => e.vecTxDSIn.any fun t => t.prevout == txin.prevout

/-- CPrivateSendServer::AddEntry (privatesend-server.cpp, line 540).  Checks,
in source order: entries-full, collateral validity, input-count maximum
(consuming the collateral on violation), duplicate inputs against admitted
entries, then the input/output shape validator (consuming the collateral when
the validator asks for it); on success appends the entry.  The last result
component lists the collaterals submitted for consumption. -/
def addEntry (ctx : Ctx) (entry : CPrivateSendEntry) (p : CPrivateSendServer) :
    CPrivateSendServer × Bool × PoolMessage × List Collateral :=
  if ¬ ctx.fMasternodeMode then (p, false, MSG_NOERR, [])
  else if getEntriesCount p ≥ p.vecSessionCollaterals.length then
    (p, false, ERR_ENTRIES_FULL, [])
  else if ¬ ctx.isCollateralValid entry.txCollateral then
    (p, false, ERR_INVALID_COLLATERAL, [])
  else if entry.vecTxDSIn.length > PRIVATESEND_ENTRY_MAX_SIZE then
    (p, false, ERR_MAXIMUM, [entry.txCollateral])
  else if hasDuplicateInput entry p.vecEntries then
    (p, false, ERR_ALREADY_HAVE, [])
  else if ¬ (ctx.isValidInOuts (entry.vecTxDSIn.map CTxDSIn.toTxIn) entry.vecTxOut).1 then
    (p, false, (ctx.isValidInOuts (entry.vecTxDSIn.map CTxDSIn.toTxIn) entry.vecTxOut).2.1,
     if (ctx.isValidInOuts (entry.vecTxDSIn.map CTxDSIn.toTxIn) entry.vecTxOut).2.2 then
       [entry.txCollateral]
     else [])
  else ({ p with vecEntries := p.vecEntries ++ [entry] }, true, MSG_ENTRIES_ADDED, [])

/-- The DSVIN message handler up to and including AddEntry
(privatesend-server.cpp, line 161): version gate, session-readiness gate,
then AddEntry.  The subsequent CheckPool call of the handler is modelled as a
separate step; it never appends entries. -/
def processDSVIN (ctx : Ctx) (now : Int) (nVersion : Int) (entry : CPrivateSendEntry)
    (p : CPrivateSendServer) : CPrivateSendServer × Bool × PoolMessage × List Collateral :=
  if nVersion < MIN_PRIVATESEND_PEER_PROTO_VERSION then (p, false, ERR_VERSION, [])
  else if ¬ isSessionReady ctx now p then (p, false, ERR_SESSION, [])
  else addEntry ctx entry p

/-- Modelled from the spec: the BIP69 input order used by
CreateFinalTransaction, "lexicographic on (prev_hash, prev_index)"; the
comparator struct itself lives outside the provided sources. -/
def inputBIP69Le (a b : CTxIn) : Prop :=
  a.prevout.hash < b.prevout.hash ∨
    (a.prevout.hash = b.prevout.hash ∧ a.prevout.n ≤ b.prevout.n)

instance : DecidableRel inputBIP69Le := fun a b => by
  unfold inputBIP69Le; infer_instance

instance : IsTotal CTxIn inputBIP69Le := by
  constructor
  intro a b
  rcases Nat.lt_trichotomy a.prevout.hash b.prevout.hash with h | h | h
  · exact Or.inl (Or.inl h)
  · rcases Nat.le_total a.prevout.n b.prevout.n with h2 | h2
    · exact Or.inl (Or.inr ⟨h, h2⟩)
    · exact Or.inr (Or.inr ⟨h.symm, h2⟩)
  · exact Or.inr (Or.inl h)

instance : IsTrans CTxIn inputBIP69Le := by
  constructor
  intro a b c hab hbc
  rcases hab with h1 | ⟨h1, h1n⟩
  · rcases hbc with h2 | ⟨h2, _⟩
    · exact Or.inl (h1.trans h2)
    · exact Or.inl (h2 ▸ h1)
  · rcases hbc with h2 | ⟨h2, h2n⟩
    · exact Or.inl (h1 ▸ h2)
    · exact Or.inr ⟨h1.trans h2, h1n.trans h2n⟩

/-- Modelled from the spec: the BIP69 output order used by
CreateFinalTransaction, "(amount, script)" ascending with the script
compared lexicographically. -/
def outputBIP69Le (a b : CTxOut) : Prop :=
  a.nValue < b.nValue ∨ (a.nValue = b.nValue ∧ a.scriptPubKey ≤ b.scriptPubKey)

instance : DecidableRel outputBIP69Le := fun a b => by
  unfold outputBIP69Le; infer_instance

instance : IsTotal CTxOut outputBIP69Le := by
  constructor
  intro a b
  rcases lt_trichotomy a.nValue b.nValue with h | h | h
  · exact Or.inl (Or.inl h)
  · rcases le_total a.scriptPubKey b.scriptPubKey with h2 | h2
    · exact Or.inl (Or.inr ⟨h, h2⟩)
    · exact Or.inr (Or.inr ⟨h.symm, h2⟩)
  · exact Or.inr (Or.inl h)

instance : IsTrans CTxOut outputBIP69Le := by
  constructor
  intro a b c hab hbc
  rcases hab with h1 | ⟨h1, h1n⟩
  · rcases hbc with h2 | ⟨h2, _⟩
    · exact Or.inl (h1.trans h2)
    · exact Or.inl (h2 ▸ h1)
  · rcases hbc with h2 | ⟨h2, h2n⟩
    · exact Or.inl (h1 ▸ h2)
    · exact Or.inr ⟨h1.trans h2, h1n.trans h2n⟩

/-- The concatenation of all admitted entries' inputs, sliced to CTxIn, in
admission order (the order CreateFinalTransaction and IsInputScriptSigValid
push them). -/
def concatInputs (l : List CPrivateSendEntry) : List CTxIn :=
  l.flatMap fun e => e.vecTxDSIn.map CTxDSIn.toTxIn

/-- The concatenation of all admitted entries' outputs in admission order. -/
def concatOutputs (l : List CPrivateSendEntry) : List CTxOut :=
  l.flatMap fun e => e.vecTxOut

/-- CPrivateSendServer::CreateFinalTransaction (privatesend-server.cpp,
line 265): concatenate every entry's outputs and inputs, sort the inputs by
the BIP69 input order and the outputs by the BIP69 output order, install the
result as the final transaction and move to POOL_STATE_SIGNING.  The sort is
embedded as insertion sort; the C++ std::sort contract is exactly
"a permutation of the input, sorted by the comparator", which the theorems
state. -/
def createFinalTransaction (ctx : Ctx) (now : Int) (p : CPrivateSendServer) :
    CPrivateSendServer :=
  let txNew : CMutableTransaction :=
    { vin := (concatInputs p.vecEntries).insertionSort inputBIP69Le
      vout := (concatOutputs p.vecEntries).insertionSort outputBIP69Le }
  setState ctx now POOL_STATE_SIGNING { p with finalMutableTransaction := txNew }

/-- CPrivateSendServer::RelayStatus (privatesend-server.cpp, line 784): count
the admitted entries whose participant address is no longer reachable; with
none, only messages are sent; with all of them gone, reset the pool; with
some but not all gone, notify participants but keep the pool.  The second
component is the list of collaterals submitted for consumption on this path:
the source consumes none. -/
def relayStatus (ctx : Ctx) (p : CPrivateSendServer) :
    CPrivateSendServer × List Collateral :=
  let nDisconnected :=
    (p.vecEntries.filter fun e => ¬ ctx.connected e.addr).length
  if nDisconnected = 0 then (p, [])
  else if nDisconnected = p.vecEntries.length then (setNull p, [])
  else (p, [])

/-- CPrivateSendServer::RelayFinalTransaction: push the final transaction to
every participant; the first disconnected participant triggers
RelayStatus(STATUS_REJECTED) and a break. -/
def relayFinalTransaction (ctx : Ctx) (p : CPrivateSendServer) : CPrivateSendServer :=
  if p.vecEntries.any fun e => ¬ ctx.connected e.addr then (relayStatus ctx p).1
  else p

/-- IsInputScriptSigValid's scan over the concatenated entry inputs: the
index (in the concatenated input list) and the recorded previous public key
of the last input whose outpoint matches; the C++ loop keeps overwriting
nTxInIndex and sigPubKey on every match. -/
def findLastInputMatch (dsins : List CTxDSIn) (pt : OutPoint) : Option (Nat × CTxDSIn) :=
  (dsins.enum.filter fun q => q.2.prevout == pt).getLast?

/-- CPrivateSendServer::IsInputScriptSigValid (privatesend-server.cpp,
line 495): rebuild a transaction from the admitted entries in admission
order (outputs then inputs per entry), locate the matching input, install
the submitted scriptSig there and verify it against that rebuilt transaction
at that index using the recorded previous public key. -/
def isInputScriptSigValid (ctx : Ctx) (p : CPrivateSendServer) (txin : CTxIn) : Bool :=
  let dsins := p.vecEntries.flatMap fun e => e.vecTxDSIn
  match findLastInputMatch dsins txin.prevout with
  | none => false
  | some (i, t) =>
    let vin1 := (dsins.map CTxDSIn.toTxIn).set i
      { prevout := t.prevout, scriptSig := txin.scriptSig, nSequence := t.nSequence }
    let txNew : CMutableTransaction := { vin := vin1, vout := concatOutputs p.vecEntries }
    ctx.verifyScript txin.scriptSig t.prevPubKey txNew i

/-- Modelled from the spec: CPrivateSendEntry::AddScriptSig on one input
list (section 4.4: find the input with matching OutPoint and sequence, set
its signature script, return true; return false when already signed or no
match).  Returns the updated list on success. -/
def addSigToDSIns (txin : CTxIn) : List CTxDSIn → Option (List CTxDSIn)
  | [] => none
  | t :: ts =>
    if t.prevout == txin.prevout && t.nSequence == txin.nSequence then
      if t.fHasSig then none
      else some ({ t with scriptSig := txin.scriptSig, fHasSig := true } :: ts)
    else (addSigToDSIns txin ts).map (t :: ·)

/-- The entry loop of CPrivateSendServer::AddScriptSig: the first entry whose
AddScriptSig succeeds is updated and iteration stops. -/
def entriesAddScriptSig (txin : CTxIn) :
    List CPrivateSendEntry → Option (List CPrivateSendEntry)
  | [] => none
  | e :: es =>
    match addSigToDSIns txin e.vecTxDSIn with
    | some l => some ({ e with vecTxDSIn := l } :: es)
    | none => (entriesAddScriptSig txin es).map (e :: ·)

/-- CPrivateSendServer::AddScriptSig (privatesend-server.cpp, line 599):
reject a scriptSig already present in some admitted entry; validate via
IsInputScriptSigValid; install the scriptSig on every final-transaction
input with matching outpoint and sequence; then install it on the first
matching unsigned entry input, which decides the return value.  No session
state is consulted. -/
def addScriptSig (ctx : Ctx) (p : CPrivateSendServer) (txin : CTxIn) :
    CPrivateSendServer × Bool :=
  if p.vecEntries.any fun e => e.vecTxDSIn.any fun t => t.scriptSig == txin.scriptSig then
    (p, false)
  else if ¬ isInputScriptSigValid ctx p txin then (p, false)
  else
    let newVin := p.finalMutableTransaction.vin.map fun ti =>
      if ti.prevout == txin.prevout && ti.nSequence == txin.nSequence then
        { ti with scriptSig := txin.scriptSig }
      else ti
    let p1 := { p with finalMutableTransaction :=
      { p.finalMutableTransaction with vin := newVin } }
    match entriesAddScriptSig txin p1.vecEntries with
    | some l => ({ p1 with vecEntries := l }, true)
    | none => (p1, false)

/-- CPrivateSendServer::IsSignaturesComplete: every input of every admitted
entry carries its signature flag. -/
def isSignaturesComplete (p : CPrivateSendServer) : Bool :=
  p.vecEntries.all fun e => e.vecTxDSIn.all fun t => t.fHasSig

/-- CDarksendQueue (privatesend.h): the queue advertisement's fields relevant
to the staleness check. -/
structure CDarksendQueue where
  nDenom : Nat
  masternodeOutpoint : OutPoint
  nTime : Int
  fReady : Bool
deriving DecidableEq, Repr

/-- CDarksendQueue::IsExpired (privatesend.h, line 199): the queue
advertisement staleness check, GetTime() - nTime > PRIVATESEND_QUEUE_TIMEOUT. -/
def isExpired (now : Int) (q : CDarksendQueue) : Bool :=
  now - q.nTime > PRIVATESEND_QUEUE_TIMEOUT

/-- The offender collection of ChargeFees (privatesend-server.cpp,
line 361): while accepting entries, every admitted collateral without a
matching entry; while signing, one push of the entry's collateral per
unsigned input of that entry; empty in every other state. -/
def offendersOf (p : CPrivateSendServer) : List Collateral :=
  if p.nState = POOL_STATE_ACCEPTING_ENTRIES then
    p.vecSessionCollaterals.filter fun c =>
      ¬ p.vecEntries.any fun e => e.txCollateral == c
  else if p.nState = POOL_STATE_SIGNING then
    p.vecEntries.flatMap fun e =>
      (e.vecTxDSIn.filter fun t => ¬ t.fHasSig).map fun _ => e.txCollateral
  else []

/-- CPrivateSendServer::ChargeFees (privatesend-server.cpp, line 352),
returning the collaterals submitted for consumption.  In source order: the
first GetRandInt(100) draw above 33 charges nothing; no offenders charges
nothing; offenders filling all but at most one slot with the second draw
above 33 charges nothing; offenders filling every slot charges nothing;
otherwise the head of the shuffled offender list is consumed.  (The C++
compares against the unsigned value vecSessionCollaterals.size() - 1; with
an empty collateral list both that comparison chain and this natural-number
truncated one charge nothing, so the outcomes agree.) -/
def chargeFees (ctx : Ctx) (rnd : Rands) (p : CPrivateSendServer) : List Collateral :=
  if ¬ ctx.fMasternodeMode then []
  else if rnd.r1 > 33 then []
  else
    let offenders := offendersOf p
    if offenders.isEmpty then []
    else if offenders.length + 1 ≥ p.vecSessionCollaterals.length ∧ rnd.r2 > 33 then []
    else if offenders.length ≥ p.vecSessionCollaterals.length then []
    else if p.nState = POOL_STATE_ACCEPTING_ENTRIES ∨ p.nState = POOL_STATE_SIGNING then
      (rnd.shuffle offenders).take 1
    else []

/-- The loop of ChargeRandomFees (privatesend-server.cpp, line 426): one
GetRandInt(100) draw per collateral in admission order, but a draw above 10
RETURNS from the whole function, so consumption stops at the first such
draw. -/
def chargeRandomFeesAux (draws : Nat → Nat) : Nat → List Collateral → List Collateral
  | _, [] => []
  | k, c :: cs => if draws k > 10 then [] else c :: chargeRandomFeesAux draws (k + 1) cs

/-- CPrivateSendServer::ChargeRandomFees: the collaterals submitted for
consumption after a successful session. -/
def chargeRandomFees (ctx : Ctx) (draws : Nat → Nat) (p : CPrivateSendServer) :
    List Collateral :=
  if ¬ ctx.fMasternodeMode then []
  else chargeRandomFeesAux draws 0 p.vecSessionCollaterals

/-- CDarksendBroadcastTx / CPrivateSendBroadcastTx: the signed broadcast
record of a finalized mixing transaction (the signature bytes themselves are
produced by the external key and are not modelled). -/
structure CDarksendBroadcastTx where
  tx : CMutableTransaction
  masternodeOutpoint : OutPoint
  sigTime : Int
deriving DecidableEq, Repr

/-- The process-wide DSTX index, mapping transaction hash to record. -/
abbrev DSTXMap := List (Nat × CDarksendBroadcastTx)

/-- CPrivateSend::GetDSTX: lookup by transaction hash. -/
def getDSTX (m : DSTXMap) (h : Nat) : Option CDarksendBroadcastTx :=
  (m.find? fun q => q.1 == h).map fun q => q.2

/-- Modelled from the spec: CPrivateSend::AddDSTX deduplicates by hash
(section 4.7); its body lives outside the provided sources. -/
def addDSTX (m : DSTXMap) (h : Nat) (r : CDarksendBroadcastTx) : DSTXMap :=
  if (getDSTX m h).isSome then m else (h, r) :: m

/-- CPrivateSendServer::CommitFinalTransaction (privatesend-server.cpp,
line 292): on mempool rejection (or an unavailable chain lock, folded into
the acceptance flag) reset and notify; on acceptance create the broadcast
record if the hash is not yet indexed, relay, charge random fees and reset.
Returns the pool, the updated DSTX index and the collaterals submitted for
consumption.  POOL_STATE_SUCCESS is never entered: SetState refuses it and
CommitFinalTransaction never requests it. -/
def commitFinalTransaction (ctx : Ctx) (now : Int) (draws : Nat → Nat) (m : DSTXMap)
    (p : CPrivateSendServer) : CPrivateSendServer × DSTXMap × List Collateral :=
  if ¬ ctx.fMasternodeMode then (p, m, [])
  else
    let hashTx := ctx.txHash p.finalMutableTransaction
    if ¬ ctx.mempoolAccepts p.finalMutableTransaction then (setNull p, m, [])
    else
      let m1 :=
        if (getDSTX m hashTx).isSome then m
        else addDSTX m hashTx
          { tx := p.finalMutableTransaction, masternodeOutpoint := ctx.mnOutpoint,
            sigTime := now }
      (setNull p, m1, chargeRandomFees ctx draws p)

/-- CPrivateSendServer::CheckPool (privatesend-server.cpp, line 233): with an
entry for every collateral while accepting entries, finalize; on timeout with
at least the minimum entry count, charge fees then finalize; while signing
with all signatures present, commit.  Finalization includes the subsequent
RelayFinalTransaction fan-out of the source. -/
def checkPool (ctx : Ctx) (now : Int) (rnd : Rands) (m : DSTXMap)
    (p : CPrivateSendServer) : CPrivateSendServer × DSTXMap × List Collateral :=
  if ¬ ctx.fMasternodeMode then (p, m, [])
  else if p.nState = POOL_STATE_ACCEPTING_ENTRIES ∧
      getEntriesCount p = p.vecSessionCollaterals.length then
    (relayFinalTransaction ctx (createFinalTransaction ctx now p), m, [])
  else if p.nState = POOL_STATE_ACCEPTING_ENTRIES ∧ hasTimedOut ctx now p ∧
      getEntriesCount p ≥ ctx.minPoolParticipants then
    (relayFinalTransaction ctx (createFinalTransaction ctx now p), m,
     chargeFees ctx rnd p)
  else if p.nState = POOL_STATE_SIGNING ∧ isSignaturesComplete p then
    commitFinalTransaction ctx now rnd.draws m p
  else (p, m, [])

/-- CPrivateSendServer::CheckForCompleteQueue: a ready queue moves from
POOL_STATE_QUEUE to POOL_STATE_ACCEPTING_ENTRIES (and re-advertises with the
ready flag set). -/
def checkForCompleteQueue (ctx : Ctx) (now : Int) (p : CPrivateSendServer) :
    CPrivateSendServer :=
  if ¬ ctx.fMasternodeMode then p
  else if p.nState = POOL_STATE_QUEUE ∧ isSessionReady ctx now p then
    setState ctx now POOL_STATE_ACCEPTING_ENTRIES p
  else p

/-- CPrivateSendServer::CheckTimeout: on timeout, charge fees and reset. -/
def checkTimeout (ctx : Ctx) (now : Int) (rnd : Rands) (p : CPrivateSendServer) :
    CPrivateSendServer × List Collateral :=
  if ¬ ctx.fMasternodeMode then (p, [])
  else if hasTimedOut ctx now p then (setNull p, chargeFees ctx rnd p)
  else (p, [])

/-- The pool as freshly constructed (every field nulled). -/
def initialServer : CPrivateSendServer :=
  { nState := POOL_STATE_IDLE
    nSessionID := 0
    nSessionDenom := 0
    vecSessionCollaterals := []
    vecEntries := []
    finalMutableTransaction := { vin := [], vout := [] }
    nTimeLastSuccessfulStep := 0 }

/-- One atomic pool mutation of the server.  Every mutation the message
handlers and the maintenance tick can perform on the session is an instance
(the handlers are sequential compositions of these; fee charging mutates no
session field).  The relation is deliberately permissive -- each primitive is
allowed whenever its own guards pass -- so the set of states it reaches from
the initial pool contains every state the source can reach. -/
inductive Step (ctx : Ctx) : CPrivateSendServer → CPrivateSendServer → Prop
  | newSession (now : Int) (rand : Nat) (dsa : CPrivateSendAccept)
      (p p' : CPrivateSendServer) (h : p' = (createNewSession ctx now rand dsa p).1) :
      Step ctx p p'
  | addUser (now : Int) (dsa : CPrivateSendAccept) (p p' : CPrivateSendServer)
      (h : p' = (addUserToExistingSession ctx now dsa p).1) : Step ctx p p'
  | dsvin (now nVersion : Int) (entry : CPrivateSendEntry) (p p' : CPrivateSendServer)
      (h : p' = (processDSVIN ctx now nVersion entry p).1) : Step ctx p p'
  | completeQueue (now : Int) (p p' : CPrivateSendServer)
      (h : p' = checkForCompleteQueue ctx now p) : Step ctx p p'
  | finalize (now : Int) (p p' : CPrivateSendServer)
      (h : p' = relayFinalTransaction ctx (createFinalTransaction ctx now p)) :
      Step ctx p p'
  | scriptSig (txin : CTxIn) (p p' : CPrivateSendServer)
      (h : p' = (addScriptSig ctx p txin).1) : Step ctx p p'
  | reset (p p' : CPrivateSendServer) (h : p' = setNull p) : Step ctx p p'

/-- The pool states reachable from the fresh pool by server operations. -/
def Reachable (ctx : Ctx) (p : CPrivateSendServer) : Prop :=
  Relation.ReflTransGen (Step ctx) initialServer p

/-- The outpoints referenced by an entry's inputs. -/
def entryPrevouts (e : CPrivateSendEntry) : List OutPoint :=
  e.vecTxDSIn.map fun t => t.prevout

/-- Pairwise disjointness of the input outpoint sets of admitted entries. -/
def EntriesDisjoint (l : List CPrivateSendEntry) : Prop :=
  (l.map entryPrevouts).Pairwise fun a b => ∀ pt ∈ a, pt ∉ b

/-- The two key session invariants: the entry count never exceeds the
collateral count, and admitted entries never share an input outpoint. -/
def PoolInv (p : CPrivateSendServer) : Prop :=
  p.vecEntries.length ≤ p.vecSessionCollaterals.length ∧ EntriesDisjoint p.vecEntries

lemma setState_vecEntries (ctx : Ctx) (now : Int) (s : PoolState) (p : CPrivateSendServer) :
    (setState ctx now s p).vecEntries = p.vecEntries := by
  unfold setState; split_ifs <;> rfl

lemma setState_vecSessionCollaterals (ctx : Ctx) (now : Int) (s : PoolState)
    (p : CPrivateSendServer) :
    (setState ctx now s p).vecSessionCollaterals = p.vecSessionCollaterals := by
  unfold setState; split_ifs <;> rfl

lemma hasDuplicateInput_eq_false_iff (e : CPrivateSendEntry) (l : List CPrivateSendEntry) :
    hasDuplicateInput e l = false ↔
      ∀ txin ∈ e.vecTxDSIn, ∀ e2 ∈ l, ∀ t ∈ e2.vecTxDSIn, t.prevout ≠ txin.prevout := by
  rw [← Bool.not_eq_true]
  simp [hasDuplicateInput]

lemma addEntry_cases (ctx : Ctx) (e : CPrivateSendEntry) (p : CPrivateSendServer) :
    ((addEntry ctx e p).1 = p ∧ (addEntry ctx e p).2.1 = false) ∨
      ((addEntry ctx e p).1 = { p with vecEntries := p.vecEntries ++ [e] } ∧
       (addEntry ctx e p).2.1 = true ∧
       p.vecEntries.length < p.vecSessionCollaterals.length ∧
       hasDuplicateInput e p.vecEntries = false) := by
  unfold addEntry
  by_cases h1 : ¬ ctx.fMasternodeMode
  · rw [if_pos h1]; exact Or.inl ⟨rfl, rfl⟩
  rw [if_neg h1]
  by_cases h2 : getEntriesCount p ≥ p.vecSessionCollaterals.length
  · rw [if_pos h2]; exact Or.inl ⟨rfl, rfl⟩
  rw [if_neg h2]
  by_cases h3 : ¬ ctx.isCollateralValid e.txCollateral
  · rw [if_pos h3]; exact Or.inl ⟨rfl, rfl⟩
  rw [if_neg h3]
  by_cases h4 : e.vecTxDSIn.length > PRIVATESEND_ENTRY_MAX_SIZE
  · rw [if_pos h4]; exact Or.inl ⟨rfl, rfl⟩
  rw [if_neg h4]
  by_cases h5 : hasDuplicateInput e p.vecEntries = true
  · rw [if_pos h5]; exact Or.inl ⟨rfl, rfl⟩
  rw [if_neg h5]
  by_cases h6 : ¬ (ctx.isValidInOuts (e.vecTxDSIn.map CTxDSIn.toTxIn) e.vecTxOut).1
  · rw [if_pos h6]; exact Or.inl ⟨rfl, rfl⟩
  rw [if_neg h6]
  refine Or.inr ⟨rfl, rfl, ?_, ?_⟩
  · simpa [getEntriesCount, not_le] using h2
  · exact Bool.not_eq_true _ |>.mp h5

lemma addSigToDSIns_prevouts (txin : CTxIn) :
    ∀ l l', addSigToDSIns txin l = some l' →
      l'.map (fun t => t.prevout) = l.map (fun t => t.prevout) := by
  intro l
  induction l with
  | nil => intro l' h; simp [addSigToDSIns] at h
  | cons t ts ih =>
    intro l' h
    by_cases hm : (t.prevout == txin.prevout && t.nSequence == txin.nSequence) = true
    · rw [addSigToDSIns, if_pos hm] at h
      by_cases hs : t.fHasSig
      · rw [if_pos hs] at h; simp at h
      · rw [if_neg hs] at h
        obtain rfl : ({ t with scriptSig := txin.scriptSig, fHasSig := true } :: ts) = l' :=
          Option.some.inj h
        simp
    · rw [addSigToDSIns, if_neg hm] at h
      rcases Option.map_eq_some'.mp h with ⟨ts', hts, rfl⟩
      simp [ih ts' hts]

lemma entriesAddScriptSig_prevouts (txin : CTxIn) :
    ∀ l l', entriesAddScriptSig txin l = some l' →
      l'.map entryPrevouts = l.map entryPrevouts := by
  intro l
  induction l with
  | nil => intro l' h; simp [entriesAddScriptSig] at h
  | cons e es ih =>
    intro l' h
    rw [entriesAddScriptSig] at h
    rcases hds : addSigToDSIns txin e.vecTxDSIn with _ | ds
    · rw [hds] at h
      rcases Option.map_eq_some'.mp h with ⟨es', hes, rfl⟩
      simp [ih es' hes]
    · rw [hds] at h
      obtain rfl : ({ e with vecTxDSIn := ds } :: es) = l' := Option.some.inj h
      simp [entryPrevouts, addSigToDSIns_prevouts txin _ _ hds]

lemma addScriptSig_fields (ctx : Ctx) (p : CPrivateSendServer) (txin : CTxIn) :
    (addScriptSig ctx p txin).1.vecSessionCollaterals = p.vecSessionCollaterals ∧
      (addScriptSig ctx p txin).1.vecEntries.map entryPrevouts =
        p.vecEntries.map entryPrevouts := by
  unfold addScriptSig
  by_cases h1 :
      (p.vecEntries.any fun e => e.vecTxDSIn.any fun t => t.scriptSig == txin.scriptSig) = true
  · rw [if_pos h1]; exact ⟨rfl, rfl⟩
  rw [if_neg h1]
  by_cases h2 : ¬ isInputScriptSigValid ctx p txin
  · rw [if_pos h2]; exact ⟨rfl, rfl⟩
  rw [if_neg h2]
  rcases hes : entriesAddScriptSig txin p.vecEntries with _ | l
  · simp [hes]
  · refine ⟨by simp [hes], ?_⟩
    simp only [hes]
    exact entriesAddScriptSig_prevouts txin _ _ hes

lemma relayStatus_cases (ctx : Ctx) (p : CPrivateSendServer) :
    (relayStatus ctx p).1 = p ∨ (relayStatus ctx p).1 = setNull p := by
  unfold relayStatus
  dsimp only
  split_ifs <;> simp

lemma relayFinalTransaction_cases (ctx : Ctx) (p : CPrivateSendServer) :
    relayFinalTransaction ctx p = p ∨ relayFinalTransaction ctx p = setNull p := by
  unfold relayFinalTransaction
  split_ifs with h
  · exact relayStatus_cases ctx p
  · exact Or.inl rfl

lemma setNull_poolInv (p : CPrivateSendServer) : PoolInv (setNull p) := by
  constructor
  · simp [setNull]
  · simp [EntriesDisjoint, setNull]

lemma createFinalTransaction_fields (ctx : Ctx) (now : Int) (p : CPrivateSendServer) :
    (createFinalTransaction ctx now p).vecEntries = p.vecEntries ∧
      (createFinalTransaction ctx now p).vecSessionCollaterals =
        p.vecSessionCollaterals := by
  unfold createFinalTransaction
  exact ⟨setState_vecEntries .., setState_vecSessionCollaterals ..⟩

lemma createNewSession_fields (ctx : Ctx) (now : Int) (rand : Nat)
    (dsa : CPrivateSendAccept) (p : CPrivateSendServer) :
    (createNewSession ctx now rand dsa p).1.vecEntries = p.vecEntries ∧
      p.vecSessionCollaterals.length ≤
        (createNewSession ctx now rand dsa p).1.vecSessionCollaterals.length := by
  unfold createNewSession
  by_cases h1 : ¬ ctx.fMasternodeMode = true ∨ p.nSessionID ≠ 0
  · rw [if_pos h1]; exact ⟨rfl, le_refl _⟩
  rw [if_neg h1]
  by_cases h2 : p.nState ≠ POOL_STATE_IDLE
  · rw [if_pos h2]; exact ⟨rfl, le_refl _⟩
  rw [if_neg h2]
  by_cases h3 : ¬ (isAcceptableDSA ctx dsa).1 = true
  · rw [if_pos h3]; exact ⟨rfl, le_refl _⟩
  rw [if_neg h3]
  dsimp only
  refine ⟨?_, ?_⟩
  · rw [setState_vecEntries]
  · rw [setState_vecSessionCollaterals]
    simp

lemma addUserToExistingSession_fields (ctx : Ctx) (now : Int)
    (dsa : CPrivateSendAccept) (p : CPrivateSendServer) :
    (addUserToExistingSession ctx now dsa p).1.vecEntries = p.vecEntries ∧
      p.vecSessionCollaterals.length ≤
        (addUserToExistingSession ctx now dsa p).1.vecSessionCollaterals.length := by
  unfold addUserToExistingSession
  by_cases h1 : ¬ ctx.fMasternodeMode = true ∨ p.nSessionID = 0 ∨
      isSessionReady ctx now p = true
  · rw [if_pos h1]; exact ⟨rfl, le_refl _⟩
  rw [if_neg h1]
  by_cases h2 : ¬ (isAcceptableDSA ctx dsa).1 = true
  · rw [if_pos h2]; exact ⟨rfl, le_refl _⟩
  rw [if_neg h2]
  by_cases h3 : p.nState ≠ POOL_STATE_QUEUE
  · rw [if_pos h3]; exact ⟨rfl, le_refl _⟩
  rw [if_neg h3]
  by_cases h4 : dsa.nDenom ≠ p.nSessionDenom
  · rw [if_pos h4]; exact ⟨rfl, le_refl _⟩
  rw [if_neg h4]
  constructor
  · rfl
  · simp

lemma checkForCompleteQueue_fields (ctx : Ctx) (now : Int) (p : CPrivateSendServer) :
    (checkForCompleteQueue ctx now p).vecEntries = p.vecEntries ∧
      (checkForCompleteQueue ctx now p).vecSessionCollaterals =
        p.vecSessionCollaterals := by
  unfold checkForCompleteQueue
  by_cases h1 : ¬ ctx.fMasternodeMode
  · rw [if_pos h1]; exact ⟨rfl, rfl⟩
  rw [if_neg h1]
  by_cases h2 : p.nState = POOL_STATE_QUEUE ∧ isSessionReady ctx now p = true
  · rw [if_pos h2]
    exact ⟨setState_vecEntries .., setState_vecSessionCollaterals ..⟩
  · rw [if_neg h2]; exact ⟨rfl, rfl⟩

lemma processDSVIN_cases (ctx : Ctx) (now nVersion : Int) (entry : CPrivateSendEntry)
    (p : CPrivateSendServer) :
    (processDSVIN ctx now nVersion entry p).1 = p ∨
      (processDSVIN ctx now nVersion entry p).1 = (addEntry ctx entry p).1 := by
  unfold processDSVIN
  by_cases h1 : nVersion < MIN_PRIVATESEND_PEER_PROTO_VERSION
  · rw [if_pos h1]; exact Or.inl rfl
  rw [if_neg h1]
  by_cases h2 : ¬ isSessionReady ctx now p = true
  · rw [if_pos h2]; exact Or.inl rfl
  rw [if_neg h2]
  exact Or.inr rfl

lemma poolInv_of_fields {p q : CPrivateSendServer}
    (hI : PoolInv p)
    (he : q.vecEntries.map entryPrevouts = p.vecEntries.map entryPrevouts)
    (hc : q.vecSessionCollaterals = p.vecSessionCollaterals) : PoolInv q := by
  rcases hI with ⟨h1, h2⟩
  constructor
  · have hlen := congrArg List.length he
    simp only [List.length_map] at hlen
    rw [hc]
    omega
  · unfold EntriesDisjoint at h2 ⊢
    rw [he]
    exact h2

lemma poolInv_mono {p q : CPrivateSendServer}
    (hI : PoolInv p)
    (he : q.vecEntries = p.vecEntries)
    (hc : p.vecSessionCollaterals.length ≤ q.vecSessionCollaterals.length) :
    PoolInv q := by
  rcases hI with ⟨h1, h2⟩
  constructor
  · rw [he]; omega
  · unfold EntriesDisjoint at h2 ⊢
    rw [he]
    exact h2

lemma addEntry_poolInv (ctx : Ctx) (e : CPrivateSendEntry) (p : CPrivateSendServer)
    (hI : PoolInv p) : PoolInv (addEntry ctx e p).1 := by
  rcases addEntry_cases ctx e p with ⟨h, _⟩ | ⟨h, _, hlt, hdup⟩
  · rw [h]; exact hI
  · rw [h]
    rcases hI with ⟨h1, h2⟩
    constructor
    · simp only [List.length_append, List.length_cons, List.length_nil]
      omega
    · unfold EntriesDisjoint at h2 ⊢
      simp only [List.map_append, List.map_cons, List.map_nil]
      rw [List.pairwise_append]
      refine ⟨h2, by simp, ?_⟩
      intro a ha b hb pt hpta hptb
      simp only [List.mem_map] at ha
      rcases ha with ⟨e2, he2, rfl⟩
      simp only [List.mem_cons, List.not_mem_nil, or_false] at hb
      subst hb
      simp only [entryPrevouts, List.mem_map] at hpta hptb
      rcases hpta with ⟨t, ht, rfl⟩
      rcases hptb with ⟨txin, htxin, hpt⟩
      exact (hasDuplicateInput_eq_false_iff e p.vecEntries).mp hdup txin htxin e2 he2 t ht
        hpt.symm

lemma step_preserves_poolInv (ctx : Ctx) {p p' : CPrivateSendServer}
    (h : Step ctx p p') (hI : PoolInv p) : PoolInv p' := by
  cases h with
  | newSession now rand dsa p p' heq =>
    subst heq
    exact poolInv_mono hI (createNewSession_fields ctx now rand dsa p).1
      (createNewSession_fields ctx now rand dsa p).2
  | addUser now dsa p p' heq =>
    subst heq
    exact poolInv_mono hI (addUserToExistingSession_fields ctx now dsa p).1
      (addUserToExistingSession_fields ctx now dsa p).2
  | dsvin now nVersion entry p p' heq =>
    subst heq
    rcases processDSVIN_cases ctx now nVersion entry p with h | h
    · rw [h]; exact hI
    · rw [h]; exact addEntry_poolInv ctx entry p hI
  | completeQueue now p p' heq =>
    subst heq
    exact poolInv_of_fields hI
      (by rw [(checkForCompleteQueue_fields ctx now p).1])
      (checkForCompleteQueue_fields ctx now p).2
  | finalize now p p' heq =>
    subst heq
    rcases relayFinalTransaction_cases ctx (createFinalTransaction ctx now p) with h | h
    · rw [h]
      exact poolInv_of_fields hI
        (by rw [(createFinalTransaction_fields ctx now p).1])
        (createFinalTransaction_fields ctx now p).2
    · rw [h]; exact setNull_poolInv _
  | scriptSig txin p p' heq =>
    subst heq
    exact poolInv_of_fields hI (addScriptSig_fields ctx p txin).2
      (addScriptSig_fields ctx p txin).1
  | reset p p' heq =>
    subst heq
    exact setNull_poolInv p

lemma initialServer_poolInv : PoolInv initialServer := by
  constructor
  · simp [initialServer]
  · simp [EntriesDisjoint, initialServer]

lemma reachable_poolInv (ctx : Ctx) (p : CPrivateSendServer)
    (h : Reachable ctx p) : PoolInv p := by
  unfold Reachable at h
  induction h with
  | refl => exact initialServer_poolInv
  | tail _ hstep ih => exact step_preserves_poolInv ctx hstep ih

/-- A permissive concrete context for concrete evaluations: masternode mode
on, pool bounds 3, every external validator accepting, every peer
connected. -/
def ctxEx : Ctx :=
  { fMasternodeMode := true
    maxPoolParticipants := 3
    minPoolParticipants := 3
    isCollateralValid := fun _ => true
    isValidDenomination := fun _ => true
    isValidInOuts := fun _ _ => (true, MSG_NOERR, false)
    verifyScript := fun _ _ _ _ => true
    mempoolAccepts := fun _ => true
    connected := fun _ => true
    txHash := fun _ => 7
    mnOutpoint := { hash := 0, n := 0 } }

/-- Concrete randomness: both ChargeFees draws 0 (lenient branches off),
identity shuffle, ChargeRandomFees draws all 0. -/
def rndEx : Rands :=
  { r1 := 0, r2 := 0, shuffle := id, draws := fun _ => 0 }

/-- A queue advertisement stamped 31 seconds in the future of time 0. -/
def qFuture : CDarksendQueue :=
  { nDenom := 1, masternodeOutpoint := { hash := 0, n := 0 }, nTime := 31, fReady := false }

/-- Claim C7, counterexample: at current time 0 an advertisement stamped 31
seconds in the future has absolute clock offset above QUEUE_TIMEOUT, yet the
staleness check IsExpired is false, so the check is not the claimed
absolute-difference test and the far-future advertisement is not dropped by
it. -/
theorem C7_counterexample :
    ((0 : Int) - qFuture.nTime).natAbs > 30 ∧ isExpired 0 qFuture = false := by decide

/-- Claim C7 (amended): the staleness check is one-sided: it is true exactly
when the advertisement's timestamp lies more than QUEUE_TIMEOUT (30 s) in
the past of the current time; a timestamp at or beyond the current time --
arbitrarily far in the future -- is never flagged. -/
theorem C7_amended :
    (∀ (now : Int) (q : CDarksendQueue),
      isExpired now q = true ↔ now - q.nTime > 30) ∧
    (∀ (now : Int) (q : CDarksendQueue), now ≤ q.nTime → isExpired now q = false) := by
  constructor
  · intro now q
    simp [isExpired, PRIVATESEND_QUEUE_TIMEOUT]
  · intro now q h
    simp only [isExpired, PRIVATESEND_QUEUE_TIMEOUT]
    simp only [decide_eq_false_iff_not, not_lt]
    omega

/-- Claim C7 witness: the amended theorem applied at time 0 to the future
advertisement. -/
theorem C7_witness : (0 : Int) ≤ qFuture.nTime ∧ isExpired 0 qFuture = false :=
  ⟨by decide, C7_amended.2 0 qFuture (by decide)⟩

/-- A pool holding two admitted collaterals (only the collateral list matters
to ChargeRandomFees). -/
def pC9 : CPrivateSendServer :=
  { initialServer with vecSessionCollaterals := [10, 11] }

/-- A draw stream whose first GetRandInt(100) outcome is 50 and whose later
outcomes are all 5. -/
def drawsEx : Nat → Nat := fun k => if k = 0 then 50 else 5

/-- Claim C9, counterexample: with two admitted collaterals and draws 50 then
5, the second collateral's draw is well below the consumption threshold, yet
nothing at all is consumed: the loop RETURNS at the first draw above 10, so
the second collateral is never subjected to its own coin flip and consumption
of one collateral is not independent of the draws for earlier ones. -/
theorem C9_counterexample :
    pC9.vecSessionCollaterals.length = 2 ∧ drawsEx 1 ≤ 10 ∧
      chargeRandomFees ctxEx drawsEx pC9 = [] := by decide

lemma chargeRandomFeesAux_spec (draws : Nat → Nat) :
    ∀ (cols : List Collateral) (k : Nat),
      (chargeRandomFeesAux draws k cols =
        cols.take (chargeRandomFeesAux draws k cols).length) ∧
      (∀ i < (chargeRandomFeesAux draws k cols).length, draws (k + i) ≤ 10) ∧
      ((chargeRandomFeesAux draws k cols).length < cols.length →
        draws (k + (chargeRandomFeesAux draws k cols).length) > 10) := by
  intro cols
  induction cols with
  | nil => intro k; simp [chargeRandomFeesAux]
  | cons c cs ih =>
    intro k
    by_cases h : draws k > 10
    · rw [chargeRandomFeesAux, if_pos h]
      refine ⟨rfl, by simp, ?_⟩
      intro _
      simpa using h
    · rw [chargeRandomFeesAux, if_neg h]
      obtain ⟨ih1, ih2, ih3⟩ := ih (k + 1)
      refine ⟨?_, ?_, ?_⟩
      · rw [List.length_cons, List.take_succ_cons]
        exact congrArg (c :: ·) ih1
      · intro i hi
        cases i with
        | zero => simpa using Nat.le_of_not_lt h
        | succ j =>
          have hj : j < (chargeRandomFeesAux draws (k + 1) cs).length := by
            simpa [Nat.succ_lt_succ_iff] using hi
          have := ih2 j hj
          rwa [show k + 1 + j = k + (j + 1) by omega] at this
      · intro hlen
        have hl : (chargeRandomFeesAux draws (k + 1) cs).length < cs.length := by
          simpa [Nat.succ_lt_succ_iff] using hlen
        have := ih3 hl
        rwa [show k + 1 + (chargeRandomFeesAux draws (k + 1) cs).length =
          k + ((chargeRandomFeesAux draws (k + 1) cs).length + 1) by omega] at this

/-- Claim C9 (amended): ChargeRandomFees walks the admitted collaterals in
order and consumes a PREFIX: the consumed list is an initial segment of the
collateral list, every consumed position had its draw at most 10 (11 of the
100 GetRandInt(100) outcomes, probability 11/100 per draw, not 1/10), and
when not every collateral was consumed the first unconsumed position's draw
exceeded 10 and ended the whole loop -- so later collaterals are skipped, not
flipped independently. -/
theorem C9_amended :
    ∀ (ctx : Ctx) (draws : Nat → Nat) (p : CPrivateSendServer),
      ctx.fMasternodeMode = true →
      (chargeRandomFees ctx draws p =
        p.vecSessionCollaterals.take (chargeRandomFees ctx draws p).length ∧
       (∀ i < (chargeRandomFees ctx draws p).length, draws i ≤ 10) ∧
       ((chargeRandomFees ctx draws p).length < p.vecSessionCollaterals.length →
         draws (chargeRandomFees ctx draws p).length > 10)) ∧
      ((Finset.range 100).filter fun r => ¬ r > 10).card = 11 := by
  intro ctx draws p hmn
  constructor
  · have hgate : chargeRandomFees ctx draws p =
        chargeRandomFeesAux draws 0 p.vecSessionCollaterals := by
      unfold chargeRandomFees
      rw [if_neg (by simp [hmn])]
    obtain ⟨h1, h2, h3⟩ := chargeRandomFeesAux_spec draws p.vecSessionCollaterals 0
    rw [hgate]
    refine ⟨h1, ?_, ?_⟩
    · intro i hi
      simpa using h2 i hi
    · intro hlen
      simpa using h3 hlen
  · decide

/-- Claim C9 witness: the amended theorem applied to the two-collateral pool
and the 50-then-5 draw stream. -/
theorem C9_witness :
    chargeRandomFees ctxEx drawsEx pC9 =
      pC9.vecSessionCollaterals.take (chargeRandomFees ctxEx drawsEx pC9).length :=
  ((C9_amended ctxEx drawsEx pC9 rfl).1).1

/-- A pool in AcceptingEntries with a single admitted collateral and no
entries: its sole participant is an offender. -/
def pC8 : CPrivateSendServer :=
  { initialServer with
      nState := POOL_STATE_ACCEPTING_ENTRIES
      nSessionID := 1
      vecSessionCollaterals := [10] }

/-- Claim C8, counterexample: the single participant is an offender and both
leniency draws are 0 (at most 33, so neither leniency branch fires), yet
nothing is consumed: when every participant is an offender the source charges
nobody unconditionally, where the claim requires exactly one collateral to be
consumed once the leniency branches decline. -/
theorem C8_counterexample :
    offendersOf pC8 = [10] ∧ rndEx.r1 ≤ 33 ∧ rndEx.r2 ≤ 33 ∧
      chargeFees ctxEx rndEx pC8 = [] := by decide

/-- Claim C8 (amended): ChargeFees never consumes more than one collateral;
it consumes nothing when the first GetRandInt(100) draw exceeds 33 (66 of
100 outcomes, probability 66/100, not exactly 2/3), when there are no
offenders, when the offenders fill every collateral slot (unconditionally),
or when they fill all but at most one slot and the second draw exceeds 33;
in the remaining cases -- accepting-entries or signing state, at least one
offender, strictly fewer offenders than collaterals, the all-but-one
leniency draw failing where applicable -- it consumes exactly the head of
the shuffled offender list. -/
theorem C8_amended :
    (∀ (ctx : Ctx) (rnd : Rands) (p : CPrivateSendServer),
      (chargeFees ctx rnd p).length ≤ 1) ∧
    (∀ (ctx : Ctx) (rnd : Rands) (p : CPrivateSendServer),
      rnd.r1 > 33 → chargeFees ctx rnd p = []) ∧
    (∀ (ctx : Ctx) (rnd : Rands) (p : CPrivateSendServer),
      offendersOf p = [] → chargeFees ctx rnd p = []) ∧
    (∀ (ctx : Ctx) (rnd : Rands) (p : CPrivateSendServer),
      (offendersOf p).length ≥ p.vecSessionCollaterals.length →
      chargeFees ctx rnd p = []) ∧
    (∀ (ctx : Ctx) (rnd : Rands) (p : CPrivateSendServer),
      (offendersOf p).length + 1 ≥ p.vecSessionCollaterals.length → rnd.r2 > 33 →
      chargeFees ctx rnd p = []) ∧
    (∀ (ctx : Ctx) (rnd : Rands) (p : CPrivateSendServer),
      ctx.fMasternodeMode = true → rnd.r1 ≤ 33 → offendersOf p ≠ [] →
      (offendersOf p).length < p.vecSessionCollaterals.length →
      ((offendersOf p).length + 1 ≥ p.vecSessionCollaterals.length → rnd.r2 ≤ 33) →
      List.Perm (rnd.shuffle (offendersOf p)) (offendersOf p) →
      (p.nState = POOL_STATE_ACCEPTING_ENTRIES ∨ p.nState = POOL_STATE_SIGNING) →
      ∃ c ∈ offendersOf p, chargeFees ctx rnd p = [c]) ∧
    ((Finset.range 100).filter fun r => 33 < r).card = 66 := by
  refine ⟨?_, ?_, ?_, ?_, ?_, ?_, by decide⟩
  · intro ctx rnd p
    unfold chargeFees
    dsimp only
    split_ifs <;> simp [List.length_take]
  · intro ctx rnd p h
    unfold chargeFees
    dsimp only
    split_ifs <;> rfl
  · intro ctx rnd p h
    unfold chargeFees
    dsimp only
    split_ifs with h1 h2 h3 h4 h5 h6 <;> first | rfl | (exfalso; simp_all)
  · intro ctx rnd p h
    unfold chargeFees
    dsimp only
    split_ifs <;> rfl
  · intro ctx rnd p h hr2
    unfold chargeFees
    dsimp only
    split_ifs with h1 h2 h3 h4 h5 h6 <;> first | rfl | exact absurd ⟨h, hr2⟩ h4
  · intro ctx rnd p hmn hr1 hne hlt hab hperm hstate
    unfold chargeFees
    dsimp only
    rw [if_neg (by simp [hmn]), if_neg (by omega), if_neg (by simpa using hne),
      if_neg (by intro hc; have h2le := hab hc.1; have h2gt := hc.2; omega),
      if_neg (by omega), if_pos hstate]
    rcases hsh : rnd.shuffle (offendersOf p) with _ | ⟨c, rest⟩
    · rw [hsh] at hperm
      have h0 := hperm.length_eq
      simp only [List.length_nil] at h0
      exact absurd (List.length_eq_zero.mp h0.symm) hne
    · refine ⟨c, ?_, ?_⟩
      · have hm : c ∈ rnd.shuffle (offendersOf p) := by
          rw [hsh]; exact List.mem_cons_self c rest
        exact hperm.mem_iff.mp hm
      · rfl

/-- A pool in AcceptingEntries where exactly one of three admitted
collaterals has no matching entry, so the offender list is a strict minority. -/
def pC8w : CPrivateSendServer :=
  { initialServer with
      nState := POOL_STATE_ACCEPTING_ENTRIES
      nSessionID := 1
      vecSessionCollaterals := [10, 11, 12]
      vecEntries :=
        [{ addr := 1, txCollateral := 11, vecTxDSIn := [], vecTxOut := [] },
         { addr := 2, txCollateral := 12, vecTxDSIn := [], vecTxOut := [] }] }

/-- Claim C8 witness: the amended theorem's charging branch applied to the
one-offender-of-three pool with both draws 0 and identity shuffle. -/
theorem C8_witness : ∃ c ∈ offendersOf pC8w, chargeFees ctxEx rndEx pC8w = [c] :=
  C8_amended.2.2.2.2.2.1 ctxEx rndEx pC8w rfl (by decide) (by decide) (by decide)
    (fun _ => by decide) (List.Perm.refl _) (Or.inl rfl)

/-- Claim C10: during RelayStatus, when the session has admitted entries and
every participant address is found disconnected, the pool is reset to the
null idle state and no collateral is submitted for consumption; when at
least one participant is still reachable, the pool is returned unchanged
(only messages are sent) and again nothing is consumed. -/
theorem C10_relayStatus_behavior :
    (∀ (ctx : Ctx) (p : CPrivateSendServer),
      p.vecEntries ≠ [] →
      (∀ e ∈ p.vecEntries, ctx.connected e.addr = false) →
      relayStatus ctx p = (setNull p, [])) ∧
    (∀ (ctx : Ctx) (p : CPrivateSendServer),
      (∃ e ∈ p.vecEntries, ctx.connected e.addr = true) →
      relayStatus ctx p = (p, [])) := by
  constructor
  · intro ctx p hne hall
    unfold relayStatus
    dsimp only
    have hfil : p.vecEntries.filter (fun e => ¬ ctx.connected e.addr) = p.vecEntries :=
      List.filter_eq_self.mpr (by intro e he; simp [hall e he])
    rw [hfil, if_neg (by simpa [List.length_eq_zero] using hne), if_pos rfl]
  · intro ctx p hex
    unfold relayStatus
    dsimp only
    have hlt : (p.vecEntries.filter (fun e => ¬ ctx.connected e.addr)).length <
        p.vecEntries.length := by
      rw [List.length_filter_lt_length_iff_exists]
      rcases hex with ⟨e, he, hc⟩
      exact ⟨e, he, by simp [hc]⟩
    by_cases h0 : (p.vecEntries.filter (fun e => ¬ ctx.connected e.addr)).length = 0
    · rw [if_pos h0]
    · rw [if_neg h0, if_neg (by omega)]

/-- A context in which every peer lookup fails (all participants
disconnected). -/
def ctxDisc : Ctx := { ctxEx with connected := fun _ => false }

/-- A one-entry pool used to exercise the relay fan-out paths. -/
def pC10 : CPrivateSendServer :=
  { initialServer with
      nState := POOL_STATE_ACCEPTING_ENTRIES
      nSessionID := 1
      vecSessionCollaterals := [10]
      vecEntries := [{ addr := 1, txCollateral := 10, vecTxDSIn := [], vecTxOut := [] }] }

/-- Claim C10 witness: both parts applied concretely: with its only
participant disconnected the one-entry pool is reset; with everyone
connected it is returned unchanged. -/
theorem C10_witness :
    relayStatus ctxDisc pC10 = (setNull pC10, []) ∧
      relayStatus ctxEx pC10 = (pC10, []) :=
  ⟨C10_relayStatus_behavior.1 ctxDisc pC10 (by decide) (fun _ _ => rfl),
   C10_relayStatus_behavior.2 ctxEx pC10
     ⟨{ addr := 1, txCollateral := 10, vecTxDSIn := [], vecTxOut := [] },
      by decide, rfl⟩⟩

lemma setState_finalMutableTransaction (ctx : Ctx) (now : Int) (s : PoolState)
    (p : CPrivateSendServer) :
    (setState ctx now s p).finalMutableTransaction = p.finalMutableTransaction := by
  unfold setState; split_ifs <;> rfl

/-- Claim C4: for every pool with a non-empty entry list,
CreateFinalTransaction installs as final transaction exactly the
concatenation of all admitted entries' inputs and outputs, reordered: the
inputs are a permutation of the concatenated inputs sorted ascending by
(prev_hash, prev_index), and the outputs are a permutation of the
concatenated outputs sorted ascending by (amount, script). -/
theorem C4_createFinalTransaction_canonical :
    ∀ (ctx : Ctx) (now : Int) (p : CPrivateSendServer),
      p.vecEntries ≠ [] →
      List.Perm (createFinalTransaction ctx now p).finalMutableTransaction.vin
          (concatInputs p.vecEntries) ∧
      List.Sorted inputBIP69Le
        (createFinalTransaction ctx now p).finalMutableTransaction.vin ∧
      List.Perm (createFinalTransaction ctx now p).finalMutableTransaction.vout
          (concatOutputs p.vecEntries) ∧
      List.Sorted outputBIP69Le
        (createFinalTransaction ctx now p).finalMutableTransaction.vout := by
  intro ctx now p _
  unfold createFinalTransaction
  dsimp only
  rw [setState_finalMutableTransaction]
  refine ⟨?_, ?_, ?_, ?_⟩
  · exact List.perm_insertionSort inputBIP69Le (concatInputs p.vecEntries)
  · exact List.sorted_insertionSort inputBIP69Le (concatInputs p.vecEntries)
  · exact List.perm_insertionSort outputBIP69Le (concatOutputs p.vecEntries)
  · exact List.sorted_insertionSort outputBIP69Le (concatOutputs p.vecEntries)

/-- Two entries in non-canonical order: the first offers outpoints (h2, 0)
and (h1, 5), the second offers (h1, 1); outputs share the amount 1 with
distinct scripts. -/
def pC4 : CPrivateSendServer :=
  { initialServer with
      nState := POOL_STATE_ACCEPTING_ENTRIES
      nSessionID := 1
      vecSessionCollaterals := [10, 11]
      vecEntries :=
        [{ addr := 1, txCollateral := 10,
           vecTxDSIn :=
             [{ prevout := { hash := 2, n := 0 }, scriptSig := [], nSequence := 0,
                prevPubKey := [5], fHasSig := false },
              { prevout := { hash := 1, n := 5 }, scriptSig := [], nSequence := 0,
                prevPubKey := [5], fHasSig := false }],
           vecTxOut := [{ nValue := 1, scriptPubKey := [1] }] },
         { addr := 2, txCollateral := 11,
           vecTxDSIn :=
             [{ prevout := { hash := 1, n := 1 }, scriptSig := [], nSequence := 0,
                prevPubKey := [6], fHasSig := false }],
           vecTxOut := [{ nValue := 1, scriptPubKey := [2] }] }] }

/-- Claim C4 witness: the canonical-ordering theorem applied to the
two-entry pool of scenario S6. -/
theorem C4_witness :
    List.Perm (createFinalTransaction ctxEx 0 pC4).finalMutableTransaction.vin
        (concatInputs pC4.vecEntries) ∧
      List.Sorted inputBIP69Le
        (createFinalTransaction ctxEx 0 pC4).finalMutableTransaction.vin :=
  ⟨(C4_createFinalTransaction_canonical ctxEx 0 pC4 (by decide)).1,
   (C4_createFinalTransaction_canonical ctxEx 0 pC4 (by decide)).2.1⟩

/-- The dsa message of the first participant (denomination 1, collateral
10). -/
def dsaA : CPrivateSendAccept := { nDenom := 1, txCollateral := 10 }

/-- The dsa messages of the second and third participants. -/
def dsaB : CPrivateSendAccept := { nDenom := 1, txCollateral := 11 }

def dsaC : CPrivateSendAccept := { nDenom := 1, txCollateral := 12 }

/-- The pool after CreateNewSession on the fresh pool. -/
def p1ex : CPrivateSendServer :=
  { nState := POOL_STATE_QUEUE
    nSessionID := 1
    nSessionDenom := 1
    vecSessionCollaterals := [10]
    vecEntries := []
    finalMutableTransaction := { vin := [], vout := [] }
    nTimeLastSuccessfulStep := 0 }

/-- The pool after one AddUserToExistingSession. -/
def p2ex : CPrivateSendServer :=
  { p1ex with vecSessionCollaterals := [10, 11] }

/-- The pool after a third participant joined: the queue is full (maximum 3)
but, no maintenance tick having run yet, the state is still
POOL_STATE_QUEUE. -/
def pQFull : CPrivateSendServer :=
  { p1ex with vecSessionCollaterals := [10, 11, 12] }

/-- A well-formed one-input entry (outpoint (1, 0), collateral 10). -/
def entryA : CPrivateSendEntry :=
  { addr := 100, txCollateral := 10
    vecTxDSIn :=
      [{ prevout := { hash := 1, n := 0 }, scriptSig := [], nSequence := 0,
         prevPubKey := [5], fHasSig := false }]
    vecTxOut := [{ nValue := 1, scriptPubKey := [1] }] }

lemma pQFull_reachable : Reachable ctxEx pQFull := by
  have s1 : Step ctxEx initialServer p1ex :=
    Step.newSession 0 0 dsaA initialServer p1ex (by decide)
  have s2 : Step ctxEx p1ex p2ex :=
    Step.addUser 0 dsaB p1ex p2ex (by decide)
  have s3 : Step ctxEx p2ex pQFull :=
    Step.addUser 0 dsaC p2ex pQFull (by decide)
  exact Relation.ReflTransGen.head s1 (Relation.ReflTransGen.head s2
    (Relation.ReflTransGen.head s3 Relation.ReflTransGen.refl))

/-- Claim C2, counterexample: a reachable pool whose queue is full but whose
state is still POOL_STATE_QUEUE (the promotion to AcceptingEntries happens
only on the next maintenance tick) admits an entry through the DSVIN
handler: the entry is appended while the session state is not
AcceptingEntries, because the handler's gate is IsSessionReady, not a state
test, and AddEntry itself never inspects the state. -/
theorem C2_counterexample :
    Reachable ctxEx pQFull ∧
    pQFull.nState = POOL_STATE_QUEUE ∧
    (processDSVIN ctxEx 0 70206 entryA pQFull).2.1 = true ∧
    (processDSVIN ctxEx 0 70206 entryA pQFull).1.vecEntries = [entryA] ∧
    (processDSVIN ctxEx 0 70206 entryA pQFull).1.nState = POOL_STATE_QUEUE :=
  ⟨pQFull_reachable, by decide, by decide, by decide, by decide⟩

/-- Claim C2 (amended): the DSVIN path appends an entry only when
IsSessionReady holds (state AcceptingEntries, or state Queue with a full or
timed-out-at-minimum collateral list) and the entry count is strictly below
the collateral count; whenever the entry count is at least the collateral
count AddEntry fails with ERR_ENTRIES_FULL leaving the pool unchanged; and
in every reachable pool the entry count never exceeds the collateral
count. -/
theorem C2_amended :
    (∀ (ctx : Ctx) (now nVersion : Int) (entry : CPrivateSendEntry)
        (p : CPrivateSendServer),
      (processDSVIN ctx now nVersion entry p).2.1 = true →
        isSessionReady ctx now p = true ∧
        p.vecEntries.length < p.vecSessionCollaterals.length ∧
        (processDSVIN ctx now nVersion entry p).1.vecEntries =
          p.vecEntries ++ [entry]) ∧
    (∀ (ctx : Ctx) (entry : CPrivateSendEntry) (p : CPrivateSendServer),
      ctx.fMasternodeMode = true →
      p.vecEntries.length ≥ p.vecSessionCollaterals.length →
      addEntry ctx entry p = (p, false, ERR_ENTRIES_FULL, [])) ∧
    (∀ (ctx : Ctx) (p : CPrivateSendServer),
      Reachable ctx p → p.vecEntries.length ≤ p.vecSessionCollaterals.length) := by
  refine ⟨?_, ?_, ?_⟩
  · intro ctx now nVersion entry p hsuc
    unfold processDSVIN at hsuc ⊢
    by_cases h1 : nVersion < MIN_PRIVATESEND_PEER_PROTO_VERSION
    · rw [if_pos h1] at hsuc; simp at hsuc
    rw [if_neg h1] at hsuc ⊢
    by_cases h2 : ¬ isSessionReady ctx now p = true
    · rw [if_pos h2] at hsuc; simp at hsuc
    rw [if_neg h2] at hsuc ⊢
    refine ⟨by simpa using h2, ?_, ?_⟩
    · rcases addEntry_cases ctx entry p with ⟨_, hf⟩ | ⟨_, _, hlt, _⟩
      · rw [hf] at hsuc; exact absurd hsuc (by simp)
      · exact hlt
    · rcases addEntry_cases ctx entry p with ⟨_, hf⟩ | ⟨ha, _, _, _⟩
      · rw [hf] at hsuc; exact absurd hsuc (by simp)
      · rw [ha]
  · intro ctx entry p hmn hfull
    unfold addEntry
    rw [if_neg (by simp [hmn]), if_pos (by simpa [getEntriesCount] using hfull)]
  · intro ctx p h
    exact (reachable_poolInv ctx p h).1

/-- Claim C2 witness: the entries-full branch applied to the fresh pool
(zero entries against zero collaterals), and the reachability invariant
applied to the reachable full-queue pool. -/
theorem C2_witness :
    addEntry ctxEx entryA initialServer =
      (initialServer, false, ERR_ENTRIES_FULL, []) ∧
    pQFull.vecEntries.length ≤ pQFull.vecSessionCollaterals.length :=
  ⟨C2_amended.2.1 ctxEx entryA initialServer rfl (by decide),
   C2_amended.2.2 ctxEx pQFull pQFull_reachable⟩

/-- A pool in AcceptingEntries holding one admitted entry (outpoint (1, 0))
with room for one more. -/
def pC3 : CPrivateSendServer :=
  { initialServer with
      nState := POOL_STATE_ACCEPTING_ENTRIES
      nSessionID := 1
      vecSessionCollaterals := [10, 11]
      vecEntries := [entryA] }

/-- A ten-input entry whose first input duplicates the admitted outpoint
(1, 0): it violates both the duplicate rule and the nine-input maximum. -/
def entryBig : CPrivateSendEntry :=
  { addr := 101, txCollateral := 11
    vecTxDSIn :=
      [{ prevout := { hash := 1, n := 0 }, scriptSig := [], nSequence := 0,
         prevPubKey := [6], fHasSig := false },
       { prevout := { hash := 2, n := 0 }, scriptSig := [], nSequence := 0,
         prevPubKey := [6], fHasSig := false },
       { prevout := { hash := 3, n := 0 }, scriptSig := [], nSequence := 0,
         prevPubKey := [6], fHasSig := false },
       { prevout := { hash := 4, n := 0 }, scriptSig := [], nSequence := 0,
         prevPubKey := [6], fHasSig := false },
       { prevout := { hash := 5, n := 0 }, scriptSig := [], nSequence := 0,
         prevPubKey := [6], fHasSig := false },
       { prevout := { hash := 6, n := 0 }, scriptSig := [], nSequence := 0,
         prevPubKey := [6], fHasSig := false },
       { prevout := { hash := 7, n := 0 }, scriptSig := [], nSequence := 0,
         prevPubKey := [6], fHasSig := false },
       { prevout := { hash := 8, n := 0 }, scriptSig := [], nSequence := 0,
         prevPubKey := [6], fHasSig := false },
       { prevout := { hash := 9, n := 0 }, scriptSig := [], nSequence := 0,
         prevPubKey := [6], fHasSig := false },
       { prevout := { hash := 10, n := 0 }, scriptSig := [], nSequence := 0,
         prevPubKey := [6], fHasSig := false }]
    vecTxOut := [] }

/-- Claim C3, counterexample: a submitted entry containing an input whose
outpoint already sits in an admitted entry is NOT always rejected with
ALREADY_HAVE and no consumption: the input-count maximum is checked first,
so this ten-input entry with a duplicated outpoint fails with ERR_MAXIMUM
and its collateral IS submitted for consumption. -/
theorem C3_counterexample :
    hasDuplicateInput entryBig pC3.vecEntries = true ∧
      addEntry ctxEx entryBig pC3 = (pC3, false, ERR_MAXIMUM, [11]) := by decide

/-- Claim C3 (amended): provided an entry passes the checks ahead of the
duplicate scan (pool not full, valid collateral, at most nine inputs), a
submitted entry duplicating an admitted outpoint is rejected with
ERR_ALREADY_HAVE, nothing is appended and no collateral is submitted for
consumption; and in every reachable pool the input outpoint sets of any two
admitted entries are disjoint. -/
theorem C3_amended :
    (∀ (ctx : Ctx) (entry : CPrivateSendEntry) (p : CPrivateSendServer),
      ctx.fMasternodeMode = true →
      p.vecEntries.length < p.vecSessionCollaterals.length →
      ctx.isCollateralValid entry.txCollateral = true →
      entry.vecTxDSIn.length ≤ PRIVATESEND_ENTRY_MAX_SIZE →
      hasDuplicateInput entry p.vecEntries = true →
      addEntry ctx entry p = (p, false, ERR_ALREADY_HAVE, [])) ∧
    (∀ (ctx : Ctx) (p : CPrivateSendServer),
      Reachable ctx p → EntriesDisjoint p.vecEntries) := by
  constructor
  · intro ctx entry p hmn hlt hcol hsize hdup
    unfold addEntry
    rw [if_neg (by simp [hmn]),
      if_neg (by simp only [getEntriesCount, not_le]; exact hlt),
      if_neg (by simp [hcol]), if_neg (by omega), if_pos hdup]
  · intro ctx p h
    exact (reachable_poolInv ctx p h).2

/-- A one-input entry duplicating the admitted outpoint (1, 0) while
respecting every earlier check. -/
def entrySmallDup : CPrivateSendEntry :=
  { addr := 102, txCollateral := 11
    vecTxDSIn :=
      [{ prevout := { hash := 1, n := 0 }, scriptSig := [3], nSequence := 0,
         prevPubKey := [6], fHasSig := false }]
    vecTxOut := [{ nValue := 1, scriptPubKey := [2] }] }

/-- Claim C3 witness: the amended rejection applied to the small duplicate
entry, and the disjointness invariant applied to the reachable full-queue
pool. -/
theorem C3_witness :
    addEntry ctxEx entrySmallDup pC3 = (pC3, false, ERR_ALREADY_HAVE, []) ∧
      EntriesDisjoint pQFull.vecEntries :=
  ⟨C3_amended.1 ctxEx entrySmallDup pC3 rfl (by decide) rfl (by decide) (by decide),
   C3_amended.2 ctxEx pQFull pQFull_reachable⟩

/-- A pool in AcceptingEntries (not Signing) holding the admitted entry with
outpoint (1, 0); the final transaction is still empty, as before the Signing
transition. -/
def pC6 : CPrivateSendServer :=
  { initialServer with
      nState := POOL_STATE_ACCEPTING_ENTRIES
      nSessionID := 1
      vecSessionCollaterals := [10]
      vecEntries := [entryA] }

/-- A signature submission for outpoint (1, 0) carrying scriptSig bytes
[7]. -/
def txinSig : CTxIn :=
  { prevout := { hash := 1, n := 0 }, scriptSig := [7], nSequence := 0 }

/-- Claim C6, counterexample: in state AcceptingEntries (not Signing) a
submitted signature input is ACCEPTED and mutates the admitted entry:
AddScriptSig and the DSSIGNFINALTX handler never test the session state. -/
theorem C6_counterexample :
    pC6.nState ≠ POOL_STATE_SIGNING ∧
      (addScriptSig ctxEx pC6 txinSig).2 = true ∧
      (addScriptSig ctxEx pC6 txinSig).1.vecEntries ≠ pC6.vecEntries := by decide

/-- Claim C6 (amended): AddScriptSig never consults the session state: for
every pool and every state value, running it on the pool with that state
substituted yields exactly the same acceptance flag and the same field
updates, with only the untouched state field differing -- so acceptance and
mutation are possible in every state, not only Signing. -/
theorem C6_amended :
    ∀ (ctx : Ctx) (p : CPrivateSendServer) (txin : CTxIn) (s : PoolState),
      addScriptSig ctx { p with nState := s } txin =
        ({ (addScriptSig ctx p txin).1 with nState := s },
         (addScriptSig ctx p txin).2) := by
  intro ctx p txin s
  unfold addScriptSig
  dsimp only
  have hval : isInputScriptSigValid ctx { p with nState := s } txin =
      isInputScriptSigValid ctx p txin := rfl
  rw [hval]
  by_cases h1 :
      (p.vecEntries.any fun e => e.vecTxDSIn.any fun t => t.scriptSig == txin.scriptSig) = true
  · rw [if_pos h1, if_pos h1]
  rw [if_neg h1, if_neg h1]
  by_cases h2 : ¬ isInputScriptSigValid ctx p txin = true
  · rw [if_pos h2, if_pos h2]
  rw [if_neg h2, if_neg h2]
  rcases hes : entriesAddScriptSig txin p.vecEntries with _ | l <;> simp only [hes]

/-- A context whose script verifier accepts exactly at input index 0 -- a
discriminator separating the entries-order rebuilt transaction from the
BIP69-sorted final transaction. -/
def ctxC5 : Ctx := { ctxEx with verifyScript := fun _ _ _ i => decide (i = 0) }

/-- Two one-input entries admitted in the order (2, 0) then (1, 0), so the
admission order disagrees with the canonical BIP69 order. -/
def eX : CPrivateSendEntry :=
  { addr := 200, txCollateral := 10
    vecTxDSIn :=
      [{ prevout := { hash := 2, n := 0 }, scriptSig := [], nSequence := 0,
         prevPubKey := [5], fHasSig := false }]
    vecTxOut := [{ nValue := 1, scriptPubKey := [1] }] }

def eY : CPrivateSendEntry :=
  { addr := 201, txCollateral := 11
    vecTxDSIn :=
      [{ prevout := { hash := 1, n := 0 }, scriptSig := [], nSequence := 0,
         prevPubKey := [6], fHasSig := false }]
    vecTxOut := [{ nValue := 1, scriptPubKey := [2] }] }

/-- A Signing-phase pool with entries [eX, eY] and the final transaction
exactly as CreateFinalTransaction assembles it (inputs BIP69-sorted: (1, 0)
before (2, 0)). -/
def pC5 : CPrivateSendServer :=
  { nState := POOL_STATE_SIGNING
    nSessionID := 1
    nSessionDenom := 1
    vecSessionCollaterals := [10, 11]
    vecEntries := [eX, eY]
    finalMutableTransaction :=
      { vin :=
          [{ prevout := { hash := 1, n := 0 }, scriptSig := [], nSequence := 0 },
           { prevout := { hash := 2, n := 0 }, scriptSig := [], nSequence := 0 }]
        vout := [{ nValue := 1, scriptPubKey := [1] }, { nValue := 1, scriptPubKey := [2] }] }
    nTimeLastSuccessfulStep := 0 }

/-- A signature submission for outpoint (2, 0) with scriptSig bytes [9]. -/
def txin5 : CTxIn :=
  { prevout := { hash := 2, n := 0 }, scriptSig := [9], nSequence := 0 }

/-- Claim C5, counterexample: the pool's final transaction is exactly the
canonically sorted assembly and the outpoint (2, 0) matches its input index
1, but the verifier rejects everything except index 0 -- verification
against the sorted final transaction at the matching index therefore fails
-- and yet AddScriptSig ACCEPTS the submission, because
IsInputScriptSigValid verifies against a transaction rebuilt from the
entries in admission order, where (2, 0) sits at index 0. -/
theorem C5_counterexample :
    pC5.finalMutableTransaction.vin =
        (concatInputs pC5.vecEntries).insertionSort inputBIP69Le ∧
      pC5.finalMutableTransaction.vout =
        (concatOutputs pC5.vecEntries).insertionSort outputBIP69Le ∧
      pC5.finalMutableTransaction.vin.findIdx
        (fun ti => ti.prevout == txin5.prevout) = 1 ∧
      ctxC5.verifyScript txin5.scriptSig [5] pC5.finalMutableTransaction 1 = false ∧
      (addScriptSig ctxC5 pC5 txin5).2 = true := by decide

/-- Claim C5 (amended): AddScriptSig accepts a submission only if it passes
IsInputScriptSigValid, which verifies the scriptSig with the recorded
prevPubKey of the LAST matching input against a transaction rebuilt from
the admitted entries in admission order (outputs then inputs per entry,
unsorted, with the submitted scriptSig installed) at the matching index of
that rebuilt transaction -- not against the canonically sorted
finalMutableTransaction; on acceptance every input of the final transaction
matching the submission's outpoint and sequence receives the scriptSig, and
the first matching unsigned entry input is signed. -/
theorem C5_amended :
    ∀ (ctx : Ctx) (p : CPrivateSendServer) (txin : CTxIn),
      (addScriptSig ctx p txin).2 = true →
      isInputScriptSigValid ctx p txin = true ∧
      (∃ i t,
        findLastInputMatch (p.vecEntries.flatMap fun e => e.vecTxDSIn) txin.prevout =
          some (i, t) ∧
        ctx.verifyScript txin.scriptSig t.prevPubKey
          { vin :=
              (((p.vecEntries.flatMap fun e => e.vecTxDSIn).map CTxDSIn.toTxIn).set i
                { prevout := t.prevout, scriptSig := txin.scriptSig,
                  nSequence := t.nSequence })
            vout := concatOutputs p.vecEntries } i = true) ∧
      (addScriptSig ctx p txin).1.finalMutableTransaction.vin =
        (p.finalMutableTransaction.vin.map fun ti =>
          if ti.prevout == txin.prevout && ti.nSequence == txin.nSequence then
            { ti with scriptSig := txin.scriptSig }
          else ti) ∧
      (∃ l, entriesAddScriptSig txin p.vecEntries = some l ∧
        (addScriptSig ctx p txin).1.vecEntries = l) := by
  intro ctx p txin hsuc
  unfold addScriptSig at hsuc ⊢
  by_cases h1 :
      (p.vecEntries.any fun e => e.vecTxDSIn.any fun t => t.scriptSig == txin.scriptSig) = true
  · rw [if_pos h1] at hsuc; simp at hsuc
  rw [if_neg h1] at hsuc ⊢
  by_cases h2 : ¬ isInputScriptSigValid ctx p txin = true
  · rw [if_pos h2] at hsuc; simp at hsuc
  rw [if_neg h2] at hsuc ⊢
  dsimp only at hsuc ⊢
  have hvalid : isInputScriptSigValid ctx p txin = true := by
    simpa using h2
  refine ⟨hvalid, ?_, ?_⟩
  · unfold isInputScriptSigValid at hvalid
    dsimp only at hvalid
    rcases hfm : findLastInputMatch (p.vecEntries.flatMap fun e => e.vecTxDSIn)
        txin.prevout with _ | q
    · rw [hfm] at hvalid
      simp at hvalid
    · rcases q with ⟨i, t⟩
      rw [hfm] at hvalid
      dsimp only at hvalid
      exact ⟨i, t, rfl, hvalid⟩
  · rcases hes : entriesAddScriptSig txin p.vecEntries with _ | l
    · rw [hes] at hsuc
      simp at hsuc
    · exact ⟨rfl, l, rfl, rfl⟩

/-- Claim C5 witness: the amended acceptance characterization applied to the
concrete accepted submission of the counterexample scenario. -/
theorem C5_witness :
    isInputScriptSigValid ctxC5 pC5 txin5 = true ∧
      (addScriptSig ctxC5 pC5 txin5).1.finalMutableTransaction.vin =
        (pC5.finalMutableTransaction.vin.map fun ti =>
          if ti.prevout == txin5.prevout && ti.nSequence == txin5.nSequence then
            { ti with scriptSig := txin5.scriptSig }
          else ti) :=
  ⟨(C5_amended ctxC5 pC5 txin5 (by decide)).1,
   (C5_amended ctxC5 pC5 txin5 (by decide)).2.2.1⟩

lemma getDSTX_cons_self (m : DSTXMap) (h : Nat) (r : CDarksendBroadcastTx) :
    getDSTX ((h, r) :: m) h = some r := by
  unfold getDSTX
  rw [List.find?_cons_of_pos _ (by simp)]
  rfl

/-- An admitted entry whose single input already carries its signature. -/
def entrySigned : CPrivateSendEntry :=
  { addr := 100, txCollateral := 10
    vecTxDSIn :=
      [{ prevout := { hash := 1, n := 0 }, scriptSig := [7], nSequence := 0,
         prevPubKey := [5], fHasSig := true }]
    vecTxOut := [{ nValue := 1, scriptPubKey := [1] }] }

/-- A fully signed Signing-phase pool ready to commit. -/
def pC1 : CPrivateSendServer :=
  { nState := POOL_STATE_SIGNING
    nSessionID := 1
    nSessionDenom := 1
    vecSessionCollaterals := [10]
    vecEntries := [entrySigned]
    finalMutableTransaction :=
      { vin := [{ prevout := { hash := 1, n := 0 }, scriptSig := [7], nSequence := 0 }]
        vout := [{ nValue := 1, scriptPubKey := [1] }] }
    nTimeLastSuccessfulStep := 0 }

/-- Claim C1, counterexample: a fully signed Signing pool whose final
transaction the mempool accepts does NOT transition to Success: the commit
path resets the pool directly to the null idle state, and SetState refuses
POOL_STATE_SUCCESS on a masternode, leaving the pool untouched when asked
for it. -/
theorem C1_counterexample :
    pC1.nState = POOL_STATE_SIGNING ∧
      isSignaturesComplete pC1 = true ∧
      ctxEx.mempoolAccepts pC1.finalMutableTransaction = true ∧
      (checkPool ctxEx 0 rndEx [] pC1).1.nState = POOL_STATE_IDLE ∧
      (checkPool ctxEx 0 rndEx [] pC1).1.nState ≠ POOL_STATE_SUCCESS ∧
      setState ctxEx 0 POOL_STATE_SUCCESS pC1 = pC1 := by decide

/-- Claim C1 (amended): when the session is in Signing with every input
signed and the mempool accepts the final transaction, CheckPool commits:
the pool is reset to the null idle state (never entering Success, which
SetState refuses on a masternode); before the reset exactly one broadcast
record keyed by the final transaction's hash is created when none exists --
prepended to the index and retrievable by that hash -- and a commit finding
an existing record for the hash leaves the index unchanged, so repeats do
not overwrite. -/
theorem C1_amended :
    ∀ (ctx : Ctx) (now : Int) (rnd : Rands) (m : DSTXMap) (p : CPrivateSendServer),
      ctx.fMasternodeMode = true →
      p.nState = POOL_STATE_SIGNING →
      isSignaturesComplete p = true →
      ctx.mempoolAccepts p.finalMutableTransaction = true →
      (checkPool ctx now rnd m p).1 = setNull p ∧
      (checkPool ctx now rnd m p).1.nState = POOL_STATE_IDLE ∧
      (getDSTX m (ctx.txHash p.finalMutableTransaction) = none →
        (checkPool ctx now rnd m p).2.1 =
          (ctx.txHash p.finalMutableTransaction,
            { tx := p.finalMutableTransaction, masternodeOutpoint := ctx.mnOutpoint,
              sigTime := now }) :: m ∧
        getDSTX (checkPool ctx now rnd m p).2.1 (ctx.txHash p.finalMutableTransaction) =
          some { tx := p.finalMutableTransaction, masternodeOutpoint := ctx.mnOutpoint,
                 sigTime := now }) ∧
      (∀ r, getDSTX m (ctx.txHash p.finalMutableTransaction) = some r →
        (checkPool ctx now rnd m p).2.1 = m ∧
        getDSTX (checkPool ctx now rnd m p).2.1 (ctx.txHash p.finalMutableTransaction) =
          some r) := by
  intro ctx now rnd m p hmn hst hsig hacc
  have hcp : checkPool ctx now rnd m p = commitFinalTransaction ctx now rnd.draws m p := by
    unfold checkPool
    rw [if_neg (by simp [hmn]), if_neg (by simp [hst]), if_neg (by simp [hst]),
      if_pos ⟨hst, hsig⟩]
  rw [hcp]
  unfold commitFinalTransaction
  rw [if_neg (by simp [hmn])]
  dsimp only
  rw [if_neg (by simp [hacc])]
  refine ⟨rfl, rfl, ?_, ?_⟩
  · intro hnone
    rw [hnone]
    unfold addDSTX
    rw [hnone]
    dsimp only
    exact ⟨rfl, getDSTX_cons_self m _ _⟩
  · intro r hr
    rw [hr]
    dsimp only
    exact ⟨rfl, hr⟩

/-- Claim C1 witness: the amended commit behavior applied to the concrete
signed pool against an empty broadcast index, and a second commit against
the index that now holds the record. -/
theorem C1_witness :
    ((checkPool ctxEx 0 rndEx [] pC1).1 = setNull pC1 ∧
      getDSTX (checkPool ctxEx 0 rndEx [] pC1).2.1
          (ctxEx.txHash pC1.finalMutableTransaction) =
        some { tx := pC1.finalMutableTransaction, masternodeOutpoint := ctxEx.mnOutpoint,
               sigTime := 0 }) ∧
    (checkPool ctxEx 0 rndEx
        [(ctxEx.txHash pC1.finalMutableTransaction,
          { tx := pC1.finalMutableTransaction, masternodeOutpoint := ctxEx.mnOutpoint,
            sigTime := 0 })] pC1).2.1 =
      [(ctxEx.txHash pC1.finalMutableTransaction,
        { tx := pC1.finalMutableTransaction, masternodeOutpoint := ctxEx.mnOutpoint,
          sigTime := 0 })] :=
  ⟨⟨(C1_amended ctxEx 0 rndEx [] pC1 rfl rfl (by decide) rfl).1,
    ((C1_amended ctxEx 0 rndEx [] pC1 rfl rfl (by decide) rfl).2.2.1 (by decide)).2⟩,
   ((C1_amended ctxEx 0 rndEx
       [(ctxEx.txHash pC1.finalMutableTransaction,
         { tx := pC1.finalMutableTransaction, masternodeOutpoint := ctxEx.mnOutpoint,
           sigTime := 0 })] pC1 rfl rfl (by decide) rfl).2.2.2
     { tx := pC1.finalMutableTransaction, masternodeOutpoint := ctxEx.mnOutpoint,
       sigTime := 0 } (by decide)).1⟩
